import Mathlib

/-!
Verification development for the camelion color library (CSS Color 4 color
conversion, gamut mapping and interpolation).

The source stores every channel in a `Component` (`f32` by default), with NaN
overloaded to mean "missing / powerless".  The shallow embedding below models a
component as either NaN or an exact rational.  All arithmetic that the verified
paths exercise (+, -, *, /, comparisons, max/min/clamp, `rem_euclid`, `%`) is
translated with IEEE NaN propagation: any comparison involving NaN is false,
`x != y` is true when either side is NaN, and Rust's `f32::max`/`f32::min`
return the other operand when one side is NaN.  Rounding of `f32` arithmetic is
abstracted by exact rational arithmetic; the transcendental kernels
(`powf`, `cbrt`, `sqrt`, `atan2`, `sin`, `cos`, degree/radian conversion) have
no exact rational semantics and are kept as explicit parameters (`Kernels`)
that the statements either quantify over or never reach.  Division by zero is
modelled as NaN (IEEE would give an infinity for a nonzero numerator); no
verified statement reaches a zero divisor.
-/

/-- A color component: `f32` in the source (`src/src/color.rs`), modelled as an
exact rational or NaN. -/
inductive Comp where
  | nan : Comp
  | val (q : ℚ) : Comp
deriving DecidableEq, Repr

namespace Comp

/-- Addition with NaN propagation. -/
def add : Comp → Comp → Comp
  | val a, val b => val (a + b)
  | _, _ => nan

/-- Subtraction with NaN propagation. -/
def sub : Comp → Comp → Comp
  | val a, val b => val (a - b)
  | _, _ => nan

/-- Multiplication with NaN propagation. -/
def mul : Comp → Comp → Comp
  | val a, val b => val (a * b)
  | _, _ => nan

/-- Division with NaN propagation.  A zero divisor is modelled as NaN (IEEE
gives an infinity for a nonzero numerator; no verified path divides by zero). -/
def div : Comp → Comp → Comp
  | val a, val b => if b = 0 then nan else val (a / b)
  | _, _ => nan

/-- Negation with NaN propagation. -/
def neg : Comp → Comp
  | val a => val (-a)
  | nan => nan

instance : Add Comp := ⟨add⟩
instance : Sub Comp := ⟨sub⟩
instance : Mul Comp := ⟨mul⟩
instance : Div Comp := ⟨div⟩
instance : Neg Comp := ⟨neg⟩

/-- IEEE `<`: false when either side is NaN. -/
def ltb : Comp → Comp → Bool
  | val a, val b => decide (a < b)
  | _, _ => false

/-- IEEE `<=`: false when either side is NaN. -/
def leb : Comp → Comp → Bool
  | val a, val b => decide (a ≤ b)
  | _, _ => false

/-- IEEE `>`. -/
def gtb (a b : Comp) : Bool := ltb b a

/-- IEEE `>=`. -/
def geb (a b : Comp) : Bool := leb b a

/-- IEEE `==`: false when either side is NaN. -/
def beq : Comp → Comp → Bool
  | val a, val b => decide (a = b)
  | _, _ => false

/-- `f32::is_nan`. -/
def isNan : Comp → Bool
  | nan => true
  | val _ => false

/-- Rust `f32::max`: returns the other operand when one side is NaN. -/
def rmax : Comp → Comp → Comp
  | nan, b => b
  | a, nan => a
  | val a, val b => val (max a b)

/-- Rust `f32::min`: returns the other operand when one side is NaN. -/
def rmin : Comp → Comp → Comp
  | nan, b => b
  | a, nan => a
  | val a, val b => val (min a b)

/-- Rust `f32::clamp(lo, hi)`: NaN stays NaN. -/
def clamp (x : Comp) (lo hi : ℚ) : Comp :=
  match x with
  | nan => nan
  | val a => val (min (max a lo) hi)

/-- `f32::abs`, NaN stays NaN. -/
def abs : Comp → Comp
  | nan => nan
  | val a => val |a|

/-- `f32::signum`: 1 for nonnegative (Rust maps +0.0 to 1.0), -1 for negative,
NaN stays NaN.  There is no negative zero among the rationals. -/
def signum : Comp → Comp
  | nan => nan
  | val a => val (if 0 ≤ a then 1 else -1)

/-- Truncation toward zero of a rational, as used by Rust's float `%`. -/
def qtrunc (x : ℚ) : ℤ := if 0 ≤ x then ⌊x⌋ else ⌈x⌉

/-- Rust float `%` (remainder with the sign of the dividend) by a nonzero
rational constant. -/
def fmod (x : Comp) (m : ℚ) : Comp :=
  match x with
  | nan => nan
  | val a => val (a - m * qtrunc (a / m))

/-- Rust `f32::rem_euclid` by a rational constant: `let r = self % rhs;
if r < 0.0 { r + rhs.abs() } else { r }`. -/
def remEuclid (x : Comp) (m : ℚ) : Comp :=
  match fmod x m with
  | nan => nan
  | val r => if r < 0 then val (r + |m|) else val r

end Comp

/-- The four missing-component flags of `src/src/color.rs` (`bitflags`). -/
structure Flags where
  c0_is_none : Bool
  c1_is_none : Bool
  c2_is_none : Bool
  alpha_is_none : Bool
deriving DecidableEq, Repr

namespace Flags

/-- `Flags::empty()`. -/
def empty : Flags := ⟨false, false, false, false⟩

end Flags

/-- The 14 color spaces / notations of `src/src/color.rs`. -/
inductive Space where
  | Srgb | Hsl | Hwb | Lab | Lch | Oklab | Oklch
  | SrgbLinear | DisplayP3 | A98Rgb | ProPhotoRgb | Rec2020
  | XyzD50 | XyzD65
deriving DecidableEq, Repr

/-- The component triple of `src/src/color.rs` (`Components`). -/
structure Components where
  c0 : Comp
  c1 : Comp
  c2 : Comp
deriving DecidableEq, Repr

namespace Components

/-- `Components::map`. -/
def map (c : Components) (f : Comp → Comp) : Components :=
  ⟨f c.c0, f c.c1, f c.c2⟩

end Components

/-- The generic color of `src/src/color.rs`. -/
structure Color where
  components : Components
  alpha : Comp
  flags : Flags
  space : Space
deriving DecidableEq, Repr

/-- `ComponentDetails` of `src/src/color.rs`: a component value together with
whether it was supplied as the explicit missing marker. -/
structure ComponentDetails where
  value : Comp
  is_none : Bool
deriving DecidableEq, Repr

/-- `From<Component> for ComponentDetails`: a plain value, never missing (even
NaN). -/
def ComponentDetails.ofComp (v : Comp) : ComponentDetails := ⟨v, false⟩

/-- `From<Option<Component>> for ComponentDetails`: `None` becomes value `0.0`
with the missing marker set. -/
def ComponentDetails.ofOpt : Option Comp → ComponentDetails
  | some v => ⟨v, false⟩
  | none => ⟨Comp.val 0, true⟩

/-- `Color::new` of `src/src/color.rs` (lines 110-132): records each
component's missing marker in the flags and stores the values unchanged.  Note
that this iteration of the constructor does not clamp the alpha value. -/
def Color.new (space : Space) (c0 c1 c2 alpha : ComponentDetails) : Color :=
  { components := ⟨c0.value, c1.value, c2.value⟩
    alpha := alpha.value
    flags := ⟨c0.is_none, c1.is_none, c2.is_none, alpha.is_none⟩
    space := space }

namespace camelion

/-- `Color::new` of `src/crates/camelion/src/color.rs` (lines 116-140), the
later iteration: identical to `Color.new` except that the alpha value is
always clamped to `[0, 1]`. -/
def ColorNew (space : Space) (c0 c1 c2 alpha : ComponentDetails) : Color :=
  { components := ⟨c0.value, c1.value, c2.value⟩
    alpha := (alpha.value).clamp 0 1
    flags := ⟨c0.is_none, c1.is_none, c2.is_none, alpha.is_none⟩
    space := space }

end camelion

namespace Color

/-- `Color::c0()`: `None` when the flag is set. -/
def c0opt (c : Color) : Option Comp :=
  if c.flags.c0_is_none then none else some c.components.c0

/-- `Color::c1()`. -/
def c1opt (c : Color) : Option Comp :=
  if c.flags.c1_is_none then none else some c.components.c1

/-- `Color::c2()`. -/
def c2opt (c : Color) : Option Comp :=
  if c.flags.c2_is_none then none else some c.components.c2

/-- `Color::alpha()`. -/
def alphaOpt (c : Color) : Option Comp :=
  if c.flags.alpha_is_none then none else some c.alpha

end Color

/-- `math::normalize` of `src/src/math.rs`: NaN to 0. -/
def mathNormalize (v : Comp) : Comp :=
  if v.isNan then Comp.val 0 else v

/-- `math::normalize_hue` of `src/src/math.rs`: normalize to `[0, 360)` and
never NaN. -/
def normalize_hue (hue : Comp) : Comp :=
  (mathNormalize hue).remEuclid 360

/-- `math::almost_zero` of `src/src/math.rs`: `v.abs() < Component::EPSILON`
with `Component = f32`, so the threshold is `2^-23`. -/
def almost_zero (v : Comp) : Bool :=
  (v.abs).ltb (Comp.val (1 / 8388608))

/-- The transcendental `f32` kernels used by the conversion pipelines
(`powf`, `cbrt`, `sqrt`, `atan2`, `sin`, `cos`, `to_radians`, `to_degrees`).
Their exact `f32` semantics (libm) has no rational embedding, so the
development keeps them as parameters; every concrete statement below either
quantifies over them or only exercises conversion arms that never call them. -/
structure Kernels where
  powf : Comp → Comp → Comp
  cbrt : Comp → Comp
  sqrt : Comp → Comp
  atan2 : Comp → Comp → Comp
  sin : Comp → Comp
  cos : Comp → Comp
  toRadians : Comp → Comp
  toDegrees : Comp → Comp

/-- A fixed arbitrary kernel instantiation (everything NaN), used to close
statements whose conversion paths never reach a kernel call. -/
def K0 : Kernels :=
  { powf := fun _ _ => Comp.nan
    cbrt := fun _ => Comp.nan
    sqrt := fun _ => Comp.nan
    atan2 := fun _ _ => Comp.nan
    sin := fun _ => Comp.nan
    cos := fun _ => Comp.nan
    toRadians := fun _ => Comp.nan
    toDegrees := fun _ => Comp.nan }

/-- `util::rgb_to_hue_min_max` of `src/src/convert.rs` (lines 206-227):
returns `(hue, min, max)`; hue is NaN when the RGB delta is zero.  Note that
`delta != 0.0` is IEEE-true when `delta` is NaN. -/
def rgb_to_hue_min_max (c : Components) : Comp × Comp × Comp :=
  let red := c.c0
  let green := c.c1
  let blue := c.c2
  let mx := (red.rmax green).rmax blue
  let mn := (red.rmin green).rmin blue
  let delta := mx - mn
  let hue :=
    if (delta.beq (Comp.val 0)) = false then
      Comp.val 60 *
        (if mx.beq red then
          (green - blue) / delta + (if green.ltb blue then Comp.val 6 else Comp.val 0)
        else if mx.beq green then
          (blue - red) / delta + Comp.val 2
        else
          (red - green) / delta + Comp.val 4)
    else
      Comp.nan
  (hue, mn, mx)

/-- `util::rgb_to_hsl` of `src/src/convert.rs` (lines 231-248). -/
def rgb_to_hsl (c : Components) : Components :=
  let hmm := rgb_to_hue_min_max c
  let hue := hmm.1
  let mn := hmm.2.1
  let mx := hmm.2.2
  let lightness := (mn + mx) / Comp.val 2
  let delta := mx - mn
  let saturation :=
    if (delta.beq (Comp.val 0)) = false then
      if lightness.beq (Comp.val 0) || lightness.beq (Comp.val 1) then
        Comp.val 0
      else
        (mx - lightness) / (lightness.rmin (Comp.val 1 - lightness))
    else
      Comp.val 0
  ⟨hue, saturation, lightness⟩

/-- The `f!` helper of `util::hsl_to_rgb` (lines 266-272): hue is already
normalized, `n` is one of 0, 8, 4. -/
def hslF (hue saturation lightness : Comp) (n : ℚ) : Comp :=
  let k := (Comp.val n + hue / Comp.val 30).fmod 12
  let a := saturation * (lightness.rmin (Comp.val 1 - lightness))
  lightness - a * (((k - Comp.val 3).rmin (Comp.val 9 - k)).clamp (-1) 1)

/-- `util::hsl_to_rgb` of `src/src/convert.rs` (lines 252-275). -/
def hsl_to_rgb (c : Components) : Components :=
  let saturation := if c.c1.isNan then Comp.val 0 else c.c1
  let lightness := if c.c2.isNan then Comp.val 0 else c.c2
  if saturation.leb (Comp.val 0) then
    ⟨lightness, lightness, lightness⟩
  else
    let hue := if c.c0.isNan then Comp.val 0 else c.c0.remEuclid 360
    ⟨hslF hue saturation lightness 0, hslF hue saturation lightness 8,
      hslF hue saturation lightness 4⟩

/-- `util::rgb_to_hwb` of `src/src/convert.rs` (lines 279-286). -/
def rgb_to_hwb (c : Components) : Components :=
  let hmm := rgb_to_hue_min_max c
  ⟨hmm.1, hmm.2.1, Comp.val 1 - hmm.2.2⟩

/-- `util::hwb_to_rgb` of `src/src/convert.rs` (lines 290-302). -/
def hwb_to_rgb (c : Components) : Components :=
  let hue := c.c0
  let whiteness := c.c1
  let blackness := c.c2
  if (whiteness + blackness).geb (Comp.val 1) then
    let gray := whiteness / (whiteness + blackness)
    ⟨gray, gray, gray⟩
  else
    let rgb := hsl_to_rgb ⟨hue, Comp.val 1, Comp.val (1/2)⟩
    rgb.map (fun v => v * (Comp.val 1 - whiteness - blackness) + whiteness)

/-- The 3x3 transform of `src/src/math.rs` (`transform` over euclid's
`Transform3D`, row-vector times matrix): with the nine constants given in the
source order `m11 m12 m13 m21 m22 m23 m31 m32 m33`, the output is
`(x*m11 + y*m21 + z*m31, x*m12 + y*m22 + z*m32, x*m13 + y*m23 + z*m33)`. -/
def transformM (m11 m12 m13 m21 m22 m23 m31 m32 m33 : ℚ) (c : Components) :
    Components :=
  ⟨c.c0 * Comp.val m11 + c.c1 * Comp.val m21 + c.c2 * Comp.val m31,
    c.c0 * Comp.val m12 + c.c1 * Comp.val m22 + c.c2 * Comp.val m32,
    c.c0 * Comp.val m13 + c.c1 * Comp.val m23 + c.c2 * Comp.val m33⟩

/-- sRGB gamma decoding (`space::Srgb::to_linear_light` of
`src/src/models/rgb.rs`); Display-P3 shares this curve. -/
def srgbToLinearLight (K : Kernels) (c : Components) : Components :=
  c.map fun value =>
    let a := value.abs
    if a.ltb (Comp.val 0.04045) then
      value / Comp.val 12.92
    else
      value.signum * K.powf ((a + Comp.val 0.055) / Comp.val 1.055) (Comp.val 2.4)

/-- sRGB gamma encoding (`space::Srgb::to_gamma_encoded`). -/
def srgbToGammaEncoded (K : Kernels) (c : Components) : Components :=
  c.map fun value =>
    let a := value.abs
    if a.gtb (Comp.val 0.0031308) then
      value.signum * (Comp.val 1.055 * K.powf a (Comp.val (1 / 2.4)) - Comp.val 0.055)
    else
      Comp.val 12.92 * value

/-- A98 RGB gamma decoding (`space::A98Rgb::to_linear_light`). -/
def a98ToLinearLight (K : Kernels) (c : Components) : Components :=
  c.map fun v => v.signum * K.powf v.abs (Comp.val (563 / 256))

/-- A98 RGB gamma encoding (`space::A98Rgb::to_gamma_encoded`). -/
def a98ToGammaEncoded (K : Kernels) (c : Components) : Components :=
  c.map fun v => v.signum * K.powf v.abs (Comp.val (256 / 563))

/-- ProPhoto RGB gamma decoding (`space::ProPhotoRgb::to_linear_light`,
`E = 16/512`). -/
def proPhotoToLinearLight (K : Kernels) (c : Components) : Components :=
  c.map fun v =>
    let a := v.abs
    if a.leb (Comp.val (16 / 512)) then
      v / Comp.val 16
    else
      v.signum * K.powf a (Comp.val 1.8)

/-- ProPhoto RGB gamma encoding (`space::ProPhotoRgb::to_gamma_encoded`,
`E = 1/512`). -/
def proPhotoToGammaEncoded (K : Kernels) (c : Components) : Components :=
  c.map fun v =>
    let a := v.abs
    if a.geb (Comp.val (1 / 512)) then
      v.signum * K.powf a (Comp.val (1 / 1.8))
    else
      Comp.val 16 * v

/-- `space::Rec2020::ALPHA`. -/
def rec2020Alpha : ℚ := 1.09929682680944

/-- `space::Rec2020::BETA`. -/
def rec2020Beta : ℚ := 0.018053968510807

/-- Rec2020 gamma decoding (`space::Rec2020::to_linear_light`). -/
def rec2020ToLinearLight (K : Kernels) (c : Components) : Components :=
  c.map fun v =>
    let a := v.abs
    if a.ltb (Comp.val (rec2020Beta * 4.5)) then
      v / Comp.val 4.5
    else
      v.signum * K.powf ((a + Comp.val rec2020Alpha - Comp.val 1) / Comp.val rec2020Alpha)
        (Comp.val (1 / 0.45))

/-- Rec2020 gamma encoding (`space::Rec2020::to_gamma_encoded`). -/
def rec2020ToGammaEncoded (K : Kernels) (c : Components) : Components :=
  c.map fun v =>
    let a := v.abs
    if a.gtb (Comp.val rec2020Beta) then
      v.signum * (Comp.val rec2020Alpha * K.powf a (Comp.val 0.45) -
        (Comp.val rec2020Alpha - Comp.val 1))
    else
      Comp.val 4.5 * v

/-- Linear-light sRGB to XYZ-D65 (`ToXyz<D65> for Rgb<Srgb, LinearLight>`). -/
def srgbLinearToXyz (c : Components) : Components :=
  transformM 0.4123907992659595 0.21263900587151036 0.01933081871559185
    0.35758433938387796 0.7151686787677559 0.11919477979462599
    0.1804807884018343 0.07219231536073371 0.9505321522496606 c

/-- XYZ-D65 to linear-light sRGB (`From<Xyz<D65>> for Rgb<Srgb, LinearLight>`). -/
def xyzToSrgbLinear (c : Components) : Components :=
  transformM 3.2409699419045213 (-0.9692436362808798) 0.05563007969699361
    (-1.5373831775700935) 1.8759675015077206 (-0.20397695888897657)
    (-0.4986107602930033) 0.04155505740717561 1.0569715142428786 c

/-- Linear-light Display-P3 to XYZ-D65 (`ToXyz<D65> for DisplayP3Linear`). -/
def p3LinearToXyz (c : Components) : Components :=
  transformM 0.48657094864821626 0.22897456406974884 0.0
    0.26566769316909294 0.6917385218365062 0.045113381858902575
    0.1982172852343625 0.079286914093745 1.0439443689009757 c

/-- XYZ-D65 to linear-light Display-P3. -/
def xyzToP3Linear (c : Components) : Components :=
  transformM 2.4934969119414245 (-0.829488969561575) 0.035845830243784335
    (-0.9313836179191236) 1.7626640603183468 (-0.07617238926804171)
    (-0.40271078445071684) 0.02362468584194359 0.9568845240076873 c

/-- Linear-light A98 RGB to XYZ-D65 (`ToXyz<D65> for A98RgbLinear`). -/
def a98LinearToXyz (c : Components) : Components :=
  transformM 0.5766690429101308 0.29734497525053616 0.027031361386412378
    0.18555823790654627 0.627363566255466 0.07068885253582714
    0.18822864623499472 0.07529145849399789 0.9913375368376389 c

/-- XYZ-D65 to linear-light A98 RGB. -/
def xyzToA98Linear (c : Components) : Components :=
  transformM 2.041587903810746 (-0.9692436362808798) 0.013444280632031024
    (-0.5650069742788596) 1.8759675015077206 (-0.11836239223101824)
    (-0.3447313507783295) 0.04155505740717561 1.0151749943912054 c

/-- Linear-light ProPhoto RGB to XYZ-D50 (`ToXyz<D50> for ProPhotoRgbLinear`). -/
def proPhotoLinearToXyz (c : Components) : Components :=
  transformM 0.7977604896723027 0.2880711282292934 0.0
    0.13518583717574031 0.7118432178101014 0.0
    0.0313493495815248 0.00008565396060525902 0.8251046025104601 c

/-- XYZ-D50 to linear-light ProPhoto RGB. -/
def xyzToProPhotoLinear (c : Components) : Components :=
  transformM 1.3457989731028281 (-0.5446224939028347) 0.0
    (-0.25558010007997534) 1.5082327413132781 0.0
    (-0.05110628506753401) 0.02053603239147973 1.2119675456389454 c

/-- Linear-light Rec2020 to XYZ-D65 (`ToXyz<D65> for Rec2020Linear`). -/
def rec2020LinearToXyz (c : Components) : Components :=
  transformM 0.6369580483012913 0.26270021201126703 0.0
    0.14461690358620838 0.677998071518871 0.028072693049087508
    0.16888097516417205 0.059301716469861945 1.0609850577107909 c

/-- XYZ-D65 to linear-light Rec2020. -/
def xyzToRec2020Linear (c : Components) : Components :=
  transformM 1.7166511879712676 (-0.666684351832489) 0.017639857445310915
    (-0.3556707837763924) 1.616481236634939 (-0.042770613257808655)
    (-0.2533662813736598) 0.01576854581391113 0.942103121235474 c

/-- White point transfer D50 to D65 (`TransferWhitePoint<D65> for D50` of
`src/src/models/xyz.rs`). -/
def d50ToD65 (c : Components) : Components :=
  transformM 0.9554734527042182 (-0.028369706963208136) 0.012314001688319899
    (-0.023098536874261423) 1.0099954580058226 (-0.020507696433477912)
    0.0632593086610217 0.021041398966943008 1.3303659366080753 c

/-- White point transfer D65 to D50 (`TransferWhitePoint<D50> for D65`). -/
def d65ToD50 (c : Components) : Components :=
  transformM 1.0479298208405488 0.029627815688159344 (-0.009243058152591178)
    0.022946793341019088 0.990434484573249 0.015055144896577895
    (-0.05019222954313557) (-0.01707382502938514) 0.7518742899580008 c

/-- `D50::WHITE_POINT` of `src/src/models/xyz.rs`. -/
def d50WhitePoint : ℚ × ℚ × ℚ :=
  (0.9642956764295677, 1.0, 0.8251046025104602)

/-- `KAPPA = 24389/27` of `src/src/models/lab.rs`. -/
def labKappa : ℚ := 24389 / 27

/-- `EPSILON = 216/24389` of `src/src/models/lab.rs`. -/
def labEpsilon : ℚ := 216 / 24389

/-- `ToXyz<D50> for Lab` of `src/src/models/lab.rs` (lines 80-119): a purely
rational piecewise polynomial map. -/
def labToXyz (c : Components) : Components :=
  let lightness := c.c0
  let a := c.c1
  let b := c.c2
  let f1 := (lightness + Comp.val 16) / Comp.val 116
  let f0 := f1 + a / Comp.val 500
  let f2 := f1 - b / Comp.val 200
  let f0c := f0 * f0 * f0
  let x := if f0c.gtb (Comp.val labEpsilon) then f0c
    else (Comp.val 116 * f0 - Comp.val 16) / Comp.val labKappa
  let y := if lightness.gtb (Comp.val (labKappa * labEpsilon)) then
      let v := (lightness + Comp.val 16) / Comp.val 116
      v * v * v
    else lightness / Comp.val labKappa
  let f2c := f2 * f2 * f2
  let z := if f2c.gtb (Comp.val labEpsilon) then f2c
    else (Comp.val 116 * f2 - Comp.val 16) / Comp.val labKappa
  ⟨x * Comp.val d50WhitePoint.1, y * Comp.val d50WhitePoint.2.1,
    z * Comp.val d50WhitePoint.2.2⟩

/-- `From<XyzD50> for Lab` of `src/src/models/lab.rs` (lines 121-147); uses the
`cbrt` kernel. -/
def xyzToLab (K : Kernels) (c : Components) : Components :=
  let adapted : Components :=
    ⟨c.c0 / Comp.val d50WhitePoint.1, c.c1 / Comp.val d50WhitePoint.2.1,
      c.c2 / Comp.val d50WhitePoint.2.2⟩
  let f := adapted.map fun v =>
    if v.gtb (Comp.val labEpsilon) then K.cbrt v
    else (Comp.val labKappa * v + Comp.val 16) / Comp.val 116
  ⟨Comp.val 116 * f.c1 - Comp.val 16, Comp.val 500 * (f.c0 - f.c1),
    Comp.val 200 * (f.c1 - f.c2)⟩

/-- `From<XyzD65> for Oklab` of `src/src/models/lab.rs` (lines 163-185); uses
the `cbrt` kernel between the two matrices. -/
def xyzToOklab (K : Kernels) (c : Components) : Components :=
  let lms := transformM 0.8190224432164319 0.0329836671980271 0.048177199566046255
    0.3619062562801221 0.9292868468965546 0.26423952494422764
    (-0.12887378261216414) 0.03614466816999844 0.6335478258136937 c
  let lms := lms.map K.cbrt
  transformM 0.2104542553 1.9779984951 0.0259040371
    0.7936177850 (-2.4285922050) 0.7827717662
    (-0.0040720468) 0.4505937099 (-0.8086757660) lms

/-- `ToXyz<D65> for Oklab` of `src/src/models/lab.rs` (lines 187-209): cubes
between two matrices, purely rational. -/
def oklabToXyz (c : Components) : Components :=
  let lms := transformM 0.99999999845051981432 1.0000000088817607767 1.0000000546724109177
    0.39633779217376785678 (-0.1055613423236563494) (-0.089484182094965759684)
    0.21580375806075880339 (-0.063854174771705903402) (-1.2914855378640917399) c
  let lms := lms.map fun v => v * v * v
  transformM 1.2268798733741557 (-0.04057576262431372) (-0.07637294974672142)
    (-0.5578149965554813) 1.1122868293970594 (-0.4214933239627914)
    0.28139105017721583 (-0.07171106666151701) 1.5869240244272418 lms

/-- `Rectangular::to_polar` of `src/src/models/lab.rs` (lines 34-47): the hue
is reported missing (NaN) when the chroma is almost zero. -/
def toPolar (K : Kernels) (c : Components) : Components :=
  let chroma := K.sqrt (c.c1 * c.c1 + c.c2 * c.c2)
  let hue := if almost_zero chroma then Comp.nan
    else normalize_hue (K.toDegrees (K.atan2 c.c2 c.c1))
  ⟨c.c0, chroma, hue⟩

/-- `Polar::to_rectangular` of `src/src/models/lab.rs` (lines 61-71). -/
def toRectangular (K : Kernels) (c : Components) : Components :=
  let hue := K.toRadians c.c2
  ⟨c.c0, c.c1 * K.cos hue, c.c1 * K.sin hue⟩

/-- A conversion result component as a `ComponentDetails`: NaN marks a missing
component (stored as 0 with the flag set, exactly as `Option` conversion does). -/
def cdOfConv (v : Comp) : ComponentDetails :=
  if v.isNan then ComponentDetails.ofOpt none else ComponentDetails.ofComp v

/-- Modelled from the spec: the per-model `Model::to_color` implementations are
not present under `src/` — only the trait declarations
(`src/src/models/mod.rs` line 23, `src/crates/camelion/src/models/mod.rs`
line 26) and the call sites in `src/src/convert.rs` are.  Per the spec ("NaN is
overloaded to mean this channel is missing", §3; "When a conversion yields a
NaN value, the component is powerless and should be treated as missing",
`src/src/convert.rs` header note) and the tests
(`src/src/models/hsl.rs` `nan_components_are_missing`,
`src/crates/camelion/src/models/rgb/mod.rs` `nan_is_missing_component`, which
expects the NaN component to be stored as `0.0` with its flag set), a model is
turned into a `Color` by marking each NaN component as missing and reattaching the
given alpha option. -/
def Model.to_color (space : Space) (c : Components) (alpha : Option Comp) : Color :=
  Color.new space (cdOfConv c.c0) (cdOfConv c.c1) (cdOfConv c.c2)
    (ComponentDetails.ofOpt alpha)

/-- The component pipeline of the direct conversion arms and of the XYZ-D50
pivot of `Color::to_space` (`src/src/convert.rs` lines 44-136): converts the
raw component triple of the source space to XYZ-D50.  `as_model` is a
transmute in the source, so the pipelines read the raw stored components. -/
def toXyzD50 (K : Kernels) (from_ : Space) (c : Components) : Components :=
  match from_ with
  | Space.Srgb => d65ToD50 (srgbLinearToXyz (srgbToLinearLight K c))
  | Space.SrgbLinear => d65ToD50 (srgbLinearToXyz c)
  | Space.Hsl => d65ToD50 (srgbLinearToXyz (srgbToLinearLight K (hsl_to_rgb c)))
  | Space.Hwb => d65ToD50 (srgbLinearToXyz (srgbToLinearLight K (hwb_to_rgb c)))
  | Space.Lab => labToXyz c
  | Space.Lch => labToXyz (toRectangular K c)
  | Space.Oklab => d65ToD50 (oklabToXyz c)
  | Space.Oklch => d65ToD50 (oklabToXyz (toRectangular K c))
  | Space.XyzD50 => c
  | Space.XyzD65 => d65ToD50 c
  | Space.DisplayP3 => d65ToD50 (p3LinearToXyz (srgbToLinearLight K c))
  | Space.A98Rgb => d65ToD50 (a98LinearToXyz (a98ToLinearLight K c))
  | Space.ProPhotoRgb => proPhotoLinearToXyz (proPhotoToLinearLight K c)
  | Space.Rec2020 => d65ToD50 (rec2020LinearToXyz (rec2020ToLinearLight K c))

/-- The second stage of the pivot of `Color::to_space`
(`src/src/convert.rs` lines 138-171): XYZ-D50 to the target space's components. -/
def fromXyzD50 (K : Kernels) (target : Space) (xyz : Components) : Components :=
  match target with
  | Space.Srgb => srgbToGammaEncoded K (xyzToSrgbLinear (d50ToD65 xyz))
  | Space.SrgbLinear => xyzToSrgbLinear (d50ToD65 xyz)
  | Space.Hsl => rgb_to_hsl (srgbToGammaEncoded K (xyzToSrgbLinear (d50ToD65 xyz)))
  | Space.Hwb => rgb_to_hwb (srgbToGammaEncoded K (xyzToSrgbLinear (d50ToD65 xyz)))
  | Space.Lab => xyzToLab K xyz
  | Space.Lch => toPolar K (xyzToLab K xyz)
  | Space.Oklab => xyzToOklab K (d50ToD65 xyz)
  | Space.Oklch => toPolar K (xyzToOklab K (d50ToD65 xyz))
  | Space.DisplayP3 => srgbToGammaEncoded K (xyzToP3Linear (d50ToD65 xyz))
  | Space.A98Rgb => a98ToGammaEncoded K (xyzToA98Linear (d50ToD65 xyz))
  | Space.ProPhotoRgb => proPhotoToGammaEncoded K (xyzToProPhotoLinear xyz)
  | Space.Rec2020 => rec2020ToGammaEncoded K (xyzToRec2020Linear (d50ToD65 xyz))
  | Space.XyzD50 => xyz
  | Space.XyzD65 => d50ToD65 xyz

/-- The component-level body of `Color::to_space` for distinct spaces: the ten
direct-shortcut arms of `src/src/convert.rs` lines 44-88, and otherwise the
XYZ-D50 pivot (lines 90-171). -/
def convertComponents (K : Kernels) (from_ target : Space) (c : Components) :
    Components :=
  match from_, target with
  | Space.Srgb, Space.SrgbLinear => srgbToLinearLight K c
  | Space.SrgbLinear, Space.Srgb => srgbToGammaEncoded K c
  | Space.Srgb, Space.Hsl => rgb_to_hsl c
  | Space.Hsl, Space.Srgb => hsl_to_rgb c
  | Space.Srgb, Space.Hwb => rgb_to_hwb c
  | Space.Hwb, Space.Srgb => hwb_to_rgb c
  | Space.XyzD50, Space.XyzD65 => d50ToD65 c
  | Space.XyzD65, Space.XyzD50 => d65ToD50 c
  | Space.Hsl, Space.Hwb => rgb_to_hwb (hsl_to_rgb c)
  | Space.Hwb, Space.Hsl => rgb_to_hsl (hwb_to_rgb c)
  | _, _ => fromXyzD50 K target (toXyzD50 K from_ c)

/-- `Color::to_space` of `src/src/convert.rs` (lines 36-172): a same-space
conversion returns the color unchanged; otherwise the components are converted
(directly or through the XYZ-D50 pivot) and the original alpha option is
reattached — every non-trivial arm of the source ends in
`.to_color(self.alpha())`. -/
def Color.to_space (K : Kernels) (c : Color) (target : Space) : Color :=
  if c.space = target then c
  else Model.to_color target (convertComponents K c.space target c.components)
    (c.alphaOpt)

/-- `in_zero_to_one` of `src/src/gamut.rs` (lines 7-9); false on NaN. -/
def in_zero_to_one (value : Comp) : Bool :=
  value.geb (Comp.val 0) && value.leb (Comp.val 1)

/-- `Color::clip` of `src/src/gamut.rs` (lines 159-167): clamp each component
to `[0, 1]`, keep the alpha value. -/
def Color.clip (c : Color) : Color :=
  Color.new c.space (ComponentDetails.ofComp (c.components.c0.clamp 0 1))
    (ComponentDetails.ofComp (c.components.c1.clamp 0 1))
    (ComponentDetails.ofComp (c.components.c2.clamp 0 1))
    (ComponentDetails.ofComp c.alpha)

/-- The RGB-family component check of `Color::in_gamut`. -/
def rgbComponentsInGamut (c : Color) : Bool :=
  in_zero_to_one c.components.c0 && in_zero_to_one c.components.c1 &&
    in_zero_to_one c.components.c2

/-- `Color::in_gamut` of `src/src/gamut.rs` (lines 173-193).  For HSL/HWB the
source recurses on the sRGB conversion; since that conversion's space is
`Srgb`, the recursive call is flattened into the component check here. -/
def Color.in_gamut (K : Kernels) (c : Color) : Bool :=
  match c.space with
  | Space.Srgb | Space.SrgbLinear | Space.DisplayP3 | Space.A98Rgb
  | Space.ProPhotoRgb | Space.Rec2020 => rgbComponentsInGamut c
  | Space.Hsl | Space.Hwb => rgbComponentsInGamut (c.to_space K Space.Srgb)
  | Space.Lab | Space.Lch | Space.Oklab | Space.Oklch
  | Space.XyzD50 | Space.XyzD65 => true

/-- `delta_eok` of `src/src/gamut.rs` (lines 13-20): Euclidean distance in
Oklab, via the `sqrt` kernel. -/
def delta_eok (K : Kernels) (reference sample : Color) : Comp :=
  let r := reference.to_space K Space.Oklab
  let s := sample.to_space K Space.Oklab
  let d0 := s.components.c0 - r.components.c0
  let d1 := s.components.c1 - r.components.c1
  let d2 := s.components.c2 - r.components.c2
  K.sqrt (d0 * d0 + d1 * d1 + d2 * d2)

/-- `JND = 0.02` of `src/src/gamut.rs` line 73. -/
def JND : ℚ := 0.02

/-- `EPSILON = 1.0e-4` of `src/src/gamut.rs` line 76 (the chroma search
tolerance). -/
def gamutEpsilon : ℚ := 1 / 10000

/-- Termination measure for the chroma binary search: the number of
`gamutEpsilon`-sized steps left in the interval, rounded up.  A NaN endpoint
means the loop guard is already false. -/
def gamutLoopMeasure : Comp → Comp → Nat
  | Comp.val a, Comp.val b => (⌈(b - a) / gamutEpsilon⌉).toNat
  | _, _ => 0

/-- The chroma binary-search loop of `Color::map_into_gamut_limits`
(`src/src/gamut.rs` lines 103-151), instrumented with an iteration count,
for rational (non-NaN) interval endpoints.  State: `current` is the Oklch
candidate, `currentInSpace` its conversion to the destination space
(initially the origin color itself), `minInGamut`, `qmin`, `qmax` as in the
source.  Each iteration sets the candidate chroma to the midpoint
`(min + max) / 2` and either returns the clipped candidate or recurses with
one endpoint moved to the midpoint, halving the interval exactly; the
recursion is well-founded by the measure `toNat ceil ((max - min) / EPSILON)`. -/
def Color.gamutLoopQ (K : Kernels) (sp : Space) (current currentInSpace : Color)
    (minInGamut : Bool) (qmin qmax : ℚ) : Color × Nat :=
  if h : gamutEpsilon < qmax - qmin then
    let chroma := (qmin + qmax) / 2
    let current' : Color :=
      { current with
        components := ⟨current.components.c0, Comp.val chroma, current.components.c2⟩ }
    let cis := current'.to_space K sp
    if minInGamut && cis.in_gamut K then
      let r := Color.gamutLoopQ K sp current' cis minInGamut chroma qmax
      (r.1, r.2 + 1)
    else
      let clipped := cis.clip
      let e := delta_eok K clipped current'
      if e.ltb (Comp.val JND) then
        if (Comp.val JND - e).ltb (Comp.val gamutEpsilon) then
          (clipped, 1)
        else
          let r := Color.gamutLoopQ K sp current' cis false chroma qmax
          (r.1, r.2 + 1)
      else
        let r := Color.gamutLoopQ K sp current' cis minInGamut qmin chroma
        (r.1, r.2 + 1)
  else (currentInSpace, 0)
termination_by (⌈(qmax - qmin) / gamutEpsilon⌉).toNat
decreasing_by
  all_goals
    first
    | rw [show qmax - (qmin + qmax) / 2 = (qmax - qmin) / 2 from by ring]
    | rw [show (qmin + qmax) / 2 - qmin = (qmax - qmin) / 2 from by ring]
    have h1 : (1 : ℚ) < (qmax - qmin) / gamutEpsilon := by
      rw [lt_div_iff₀ (by norm_num [gamutEpsilon] : (0 : ℚ) < gamutEpsilon)]
      simpa using h
    have h2 : 1 < ⌈(qmax - qmin) / gamutEpsilon⌉ := by
      exact_mod_cast Int.lt_ceil.mpr (by exact_mod_cast h1)
    have h3 : ⌈(qmax - qmin) / 2 / gamutEpsilon⌉ ≤ ⌈(qmax - qmin) / gamutEpsilon⌉ - 1 := by
      apply Int.ceil_le.mpr
      rw [show (qmax - qmin) / 2 / gamutEpsilon = (qmax - qmin) / gamutEpsilon / 2 from by
        ring]
      have hle : (qmax - qmin) / gamutEpsilon ≤ (⌈(qmax - qmin) / gamutEpsilon⌉ : ℚ) :=
        Int.le_ceil _
      have h2q : (2 : ℚ) ≤ (⌈(qmax - qmin) / gamutEpsilon⌉ : ℚ) := by exact_mod_cast h2
      push_cast
      linarith
    omega

/-- The loop of `Color::map_into_gamut_limits` over `f32` interval endpoints:
the guard `max - min > EPSILON` is IEEE-false whenever either endpoint is NaN,
so the loop body runs only for rational endpoints (`gamutLoopQ`). -/
def Color.gamutLoop (K : Kernels) (sp : Space) (current currentInSpace : Color)
    (minInGamut : Bool) (mn mx : Comp) : Color × Nat :=
  match mn, mx with
  | Comp.val qmin, Comp.val qmax =>
    Color.gamutLoopQ K sp current currentInSpace minInGamut qmin qmax
  | _, _ => (currentInSpace, 0)

/-- The `matches!(self.space, Lab | Lch | Oklab | Oklch | XyzD50 | XyzD65)`
test of `src/src/gamut.rs` lines 29-32: the spaces without gamut limits. -/
def Space.hasNoGamutLimits : Space → Bool
  | Space.Lab | Space.Lch | Space.Oklab | Space.Oklch
  | Space.XyzD50 | Space.XyzD65 => true
  | _ => false

/-- `Color::map_into_gamut_limits` of `src/src/gamut.rs` (lines 26-155). -/
def Color.map_into_gamut_limits (K : Kernels) (c : Color) : Color :=
  if c.space.hasNoGamutLimits then c
  else
    if c.in_gamut K then c
    else
      let origin_oklch := c.to_space K Space.Oklch
      if (origin_oklch.components.c0).geb (Comp.val 1) then
        Color.new c.space (ComponentDetails.ofComp (Comp.val 1))
          (ComponentDetails.ofComp (Comp.val 1)) (ComponentDetails.ofComp (Comp.val 1))
          (ComponentDetails.ofComp c.alpha)
      else if (origin_oklch.components.c0).leb (Comp.val 0) then
        Color.new c.space (ComponentDetails.ofComp (Comp.val 0))
          (ComponentDetails.ofComp (Comp.val 0)) (ComponentDetails.ofComp (Comp.val 0))
          (ComponentDetails.ofComp c.alpha)
      else
        let clipped := c.clip
        if (delta_eok K origin_oklch clipped).ltb (Comp.val JND) then clipped
        else
          (Color.gamutLoop K c.space origin_oklch c true (Comp.val 0)
            origin_oklch.components.c1).1

/-- `Space::hue_index` of `src/src/interpolate.rs` (lines 328-345). -/
def Space.hue_index : Space → Option Nat
  | Space.Hsl => some 0
  | Space.Hwb => some 0
  | Space.Lch => some 2
  | Space.Oklch => some 2
  | _ => none

/-- `Space::_is_rgb_like` of `src/src/interpolate.rs` (lines 287-304). -/
def Space.is_rgb_like : Space → Bool
  | Space.Srgb | Space.SrgbLinear | Space.DisplayP3 | Space.A98Rgb
  | Space.ProPhotoRgb | Space.Rec2020 => true
  | _ => false

/-- `Space::_is_xyz_like` of `src/src/interpolate.rs` (lines 308-324). -/
def Space.is_xyz_like : Space → Bool
  | Space.XyzD50 | Space.XyzD65 => true
  | _ => false

/-- `HueInterpolationMethod` of `src/src/interpolate.rs`. -/
inductive HueInterpolationMethod where
  | Shorter | Longer | Increasing | Decreasing
deriving DecidableEq, Repr

/-- `HueInterpolationMethod::adjust_hue` of `src/src/interpolate.rs`
(lines 66-102): both hues are first reduced with `rem_euclid(360)`, then one
endpoint is shifted by 360 degrees according to the method.  (The source's
debug assertions that the hues are not NaN are not modelled; the callers only
reach this with non-missing hues.) -/
def HueInterpolationMethod.adjust_hue (m : HueInterpolationMethod) (a0 b0 : Comp) :
    Comp × Comp :=
  let a := a0.remEuclid 360
  let b := b0.remEuclid 360
  match m with
  | HueInterpolationMethod.Shorter =>
    let delta := b - a
    if delta.gtb (Comp.val 180) then (a + Comp.val 360, b)
    else if delta.ltb (Comp.val (-180)) then (a, b + Comp.val 360)
    else (a, b)
  | HueInterpolationMethod.Longer =>
    let delta := b - a
    if (Comp.val 0).ltb delta && delta.ltb (Comp.val 180) then (a + Comp.val 360, b)
    else if (Comp.val (-180)).ltb delta && delta.leb (Comp.val 0) then
      (a, b + Comp.val 360)
    else (a, b)
  | HueInterpolationMethod.Increasing =>
    if b.ltb a then (a, b + Comp.val 360) else (a, b)
  | HueInterpolationMethod.Decreasing =>
    if a.ltb b then (a + Comp.val 360, b) else (a, b)

/-- `Premultiplied` of `src/src/interpolate.rs` (lines 108-114): the three
premultiplied component options and the original alpha option. -/
structure Premultiplied where
  p0 : Option Comp
  p1 : Option Comp
  p2 : Option Comp
  alpha : Option Comp
deriving DecidableEq, Repr

/-- `Color::premultiply` of `src/src/interpolate.rs` (lines 11-39): each
non-hue channel is multiplied by the alpha value; a missing-alpha color keeps
its raw channel values and a missing alpha. -/
def Color.premultiply (c : Color) : Premultiplied :=
  if c.flags.alpha_is_none then
    ⟨c.c0opt, c.c1opt, c.c2opt, none⟩
  else
    let f (i : Nat) (o : Option Comp) : Option Comp :=
      o.map fun v => if c.space.hue_index ≠ some i then v * c.alpha else v
    ⟨f 0 c.c0opt, f 1 c.c1opt, f 2 c.c2opt, c.alphaOpt⟩

/-- `Premultiplied::into_color` of `src/src/interpolate.rs` (lines 120-147):
un-premultiply by the given alpha unless it is missing or zero (the source
guard `Some(alpha) if alpha != 0.0` is IEEE-true for a NaN alpha).  The hue
channel is never divided. -/
def Premultiplied.into_color (p : Premultiplied) (space : Space)
    (alpha : Option Comp) : Color :=
  match alpha with
  | some a =>
    if (a.beq (Comp.val 0)) = false then
      let f (i : Nat) (o : Option Comp) : Option Comp :=
        if space.hue_index = some i then o else o.map fun v => v / a
      Color.new space (ComponentDetails.ofOpt (f 0 p.p0))
        (ComponentDetails.ofOpt (f 1 p.p1)) (ComponentDetails.ofOpt (f 2 p.p2))
        (ComponentDetails.ofOpt (some a))
    else
      Color.new space (ComponentDetails.ofOpt p.p0) (ComponentDetails.ofOpt p.p1)
        (ComponentDetails.ofOpt p.p2) (ComponentDetails.ofOpt alpha)
  | none =>
    Color.new space (ComponentDetails.ofOpt p.p0) (ComponentDetails.ofOpt p.p1)
      (ComponentDetails.ofOpt p.p2) (ComponentDetails.ofOpt alpha)

/-- `Interpolation` of `src/src/interpolate.rs` (lines 152-162). -/
structure Interpolation where
  left : Premultiplied
  right : Premultiplied
  space : Space
  hue_interpolation_method : HueInterpolationMethod
deriving DecidableEq, Repr

/-- `Interpolation::new` of `src/src/interpolate.rs` (lines 166-198): convert
both endpoints into the interpolation space, copy a present alpha over a
missing one, then premultiply.  The default hue interpolation method is
`Shorter`. -/
def Interpolation.new (K : Kernels) (left right : Color) (space : Space) :
    Interpolation :=
  let l := left.to_space K space
  let r := right.to_space K space
  let lr : Color × Color :=
    match l.alphaOpt, r.alphaOpt with
    | some la, none =>
      (l, { r with flags := { r.flags with alpha_is_none := false }, alpha := la })
    | none, some ra =>
      ({ l with flags := { l.flags with alpha_is_none := false }, alpha := ra }, r)
    | _, _ => (l, r)
  { left := lr.1.premultiply
    right := lr.2.premultiply
    space := space
    hue_interpolation_method := HueInterpolationMethod.Shorter }

/-- `Color::interpolate` of `src/src/interpolate.rs` (lines 5-7). -/
def Color.interpolate (K : Kernels) (c other : Color) (space : Space) :
    Interpolation :=
  Interpolation.new K c other space

/-- `Interpolation::with_hue_interpolation` (lines 201-206). -/
def Interpolation.with_hue_interpolation (I : Interpolation)
    (m : HueInterpolationMethod) : Interpolation :=
  { I with hue_interpolation_method := m }

/-- One interpolated premultiplied channel of `Interpolation::with_weights`
(lines 259-274): missing/missing stays missing, missing/present carries the
present value through, present/present interpolates (with hue adjustment and
renormalization into `[0, 360)` on the hue channel). -/
def interpChannel (space : Space) (m : HueInterpolationMethod) (i : Nat)
    (lw rw : Comp) : Option Comp → Option Comp → Option Comp
  | none, none => none
  | none, some r => some r
  | some l, none => some l
  | some l, some r =>
    some (match space.hue_index with
      | some idx =>
        if idx = i then
          let ab := m.adjust_hue l r
          (ab.1 * lw + ab.2 * rw).remEuclid 360
        else l * lw + r * rw
      | none => l * lw + r * rw)

/-- `Interpolation::with_weights` of `src/src/interpolate.rs` (lines 238-277):
the raw weighted combination of the two premultiplied endpoints; the
interpolated alpha is clamped to `[0, 1]`; the result is un-premultiplied by
the interpolated alpha.  Note that this function does not normalize its
weights.  The source's `unreachable!` arm (one alpha missing after
construction normalized them) is modelled as a missing alpha. -/
def Interpolation.with_weights (I : Interpolation) (lw rw : Comp) : Color :=
  let alpha : Option Comp :=
    match I.left.alpha, I.right.alpha with
    | none, none => none
    | some l, some r => some ((l * lw + r * rw).clamp 0 1)
    | _, _ => none
  let result : Premultiplied :=
    ⟨interpChannel I.space I.hue_interpolation_method 0 lw rw I.left.p0 I.right.p0,
      interpChannel I.space I.hue_interpolation_method 1 lw rw I.left.p1 I.right.p1,
      interpChannel I.space I.hue_interpolation_method 2 lw rw I.left.p2 I.right.p2,
      none⟩
  result.into_color I.space alpha

/-- `Interpolation::at` of `src/src/interpolate.rs` (lines 280-282):
`with_weights(1 - t, t)`. -/
def Interpolation.at (I : Interpolation) (t : Comp) : Color :=
  I.with_weights (Comp.val 1 - t) t

/-- `Interpolation::with_normalized_weights` of `src/src/interpolate.rs`
(lines 211-234): normalizes the weights per the CSS color-mix percentage rule
(rescale by `1/(left + right)` when the sum is not 1; additionally multiply
the resulting alpha by the sum when it is below 1), then calls
`with_weights`. -/
def Interpolation.with_normalized_weights (I : Interpolation) (lw rw : Comp) :
    Color :=
  let t : Comp × Comp × Comp :=
    let sum := lw + rw
    if (sum.beq (Comp.val 1)) = false then
      let scale := Comp.val 1 / sum
      (lw * scale, rw * scale,
        if sum.ltb (Comp.val 1) then sum else Comp.val 1)
    else (lw, rw, Comp.val 1)
  let result := I.with_weights t.1 t.2.1
  { result with alpha := result.alpha * t.2.2 }

/-- `_analogous_missing_components` of `src/src/interpolate.rs`
(lines 348-405): the CSS Color 4 carry-forward table for missing components.
This function is fully implemented and unit-tested in the source but is never
called by `Color::to_space` or by the interpolation pipeline (its name is
underscore-prefixed; a TODO in `Interpolation::new` notes that the
carrying-forward step still has to be wired in). -/
def analogous_missing_components (from_ to_ : Space) (flags : Flags) : Flags :=
  if from_ = to_ then flags
  else if (from_.is_rgb_like || from_.is_xyz_like) &&
      (from_.is_rgb_like || to_.is_xyz_like) then
    flags
  else
    let result := Flags.empty
    -- Lightness        L
    let result :=
      if from_ = Space.Lab ∨ from_ = Space.Lch ∨ from_ = Space.Oklab ∨
          from_ = Space.Oklch then
        if to_ = Space.Lab ∨ to_ = Space.Lch ∨ to_ = Space.Oklab ∨ to_ = Space.Oklch then
          { result with c0_is_none := flags.c0_is_none }
        else if to_ = Space.Hsl then
          { result with c2_is_none := flags.c0_is_none }
        else result
      else if from_ = Space.Hsl ∧
          (to_ = Space.Lab ∨ to_ = Space.Lch ∨ to_ = Space.Oklab ∨ to_ = Space.Oklch) then
        { result with c0_is_none := flags.c2_is_none }
      else result
    -- Colorfulness     C, S
    let result :=
      if (from_ = Space.Hsl ∨ from_ = Space.Lch ∨ from_ = Space.Oklch) ∧
          (to_ = Space.Hsl ∨ to_ = Space.Lch ∨ to_ = Space.Oklch) then
        { result with c1_is_none := flags.c1_is_none }
      else result
    -- Hue              H
    let result :=
      if from_ = Space.Hsl ∨ from_ = Space.Hwb then
        if to_ = Space.Hsl ∨ to_ = Space.Hwb then
          { result with c0_is_none := flags.c0_is_none }
        else if to_ = Space.Lch ∨ to_ = Space.Oklch then
          { result with c2_is_none := flags.c0_is_none }
        else result
      else if from_ = Space.Lch ∨ from_ = Space.Oklch then
        if to_ = Space.Hsl ∨ to_ = Space.Hwb then
          { result with c0_is_none := flags.c2_is_none }
        else if to_ = Space.Lch ∨ to_ = Space.Oklch then
          { result with c2_is_none := flags.c2_is_none }
        else result
      else result
    -- Opponent         a, b
    let result :=
      if (from_ = Space.Lab ∨ from_ = Space.Oklab) ∧
          (to_ = Space.Lab ∨ to_ = Space.Oklab) then
        { result with c1_is_none := flags.c1_is_none, c2_is_none := flags.c2_is_none }
      else result
    result

/-- Bounded-distance check used for the approximate round-trip statements:
true when the component is a rational within `tol` of `b`. -/
def Comp.nearb (a : Comp) (b tol : ℚ) : Bool :=
  match a with
  | Comp.nan => false
  | Comp.val x => decide (|x - b| ≤ tol)

/-- `Color::new(Space::Hsl, None, 0.5, 0.5, 1.0)`: an HSL color with a missing
hue (stored 0 with the `C0_IS_NONE` flag). -/
def c3color : Color :=
  Color.new Space.Hsl (ComponentDetails.ofOpt none)
    (ComponentDetails.ofComp (Comp.val 0.5)) (ComponentDetails.ofComp (Comp.val 0.5))
    (ComponentDetails.ofComp (Comp.val 1))

/-- The interpolation of the source test `add_weights`
(`src/src/interpolate.rs`): sRGB `(0.5, 0.5, 0.5)` to `(0.1, 0.1, 0.1)`, both
opaque, mixed in sRGB (a same-space construction, so no conversion kernel is
exercised). -/
def interp4 : Interpolation :=
  Interpolation.new K0
    (Color.new Space.Srgb (ComponentDetails.ofComp (Comp.val 0.5))
      (ComponentDetails.ofComp (Comp.val 0.5)) (ComponentDetails.ofComp (Comp.val 0.5))
      (ComponentDetails.ofComp (Comp.val 1)))
    (Color.new Space.Srgb (ComponentDetails.ofComp (Comp.val 0.1))
      (ComponentDetails.ofComp (Comp.val 0.1)) (ComponentDetails.ofComp (Comp.val 0.1))
      (ComponentDetails.ofComp (Comp.val 1)))
    Space.Srgb

/-- The concrete sRGB color of the round-trip property:
`(0.823529, 0.411765, 0.117647, 1.0)`. -/
def c5srgb : Color :=
  Color.new Space.Srgb (ComponentDetails.ofComp (Comp.val 0.823529))
    (ComponentDetails.ofComp (Comp.val 0.411765))
    (ComponentDetails.ofComp (Comp.val 0.117647))
    (ComponentDetails.ofComp (Comp.val 1))

/-- `c5srgb` converted to HSL (the sRGB-to-HSL direct arm is kernel-free). -/
def c5hsl : Color := c5srgb.to_space K0 Space.Hsl

/-- `c5hsl` converted back to sRGB. -/
def c5back : Color := c5hsl.to_space K0 Space.Srgb

/-- The interpolation of the source test `hue_components`
(`src/src/interpolate.rs`): HSL `(50°, 0.3, 0.7)` to `(-30°, 0.7, 0.3)`, both
opaque, mixed in HSL (same-space, kernel-free). -/
def interp6 : Interpolation :=
  Interpolation.new K0
    (Color.new Space.Hsl (ComponentDetails.ofComp (Comp.val 50))
      (ComponentDetails.ofComp (Comp.val 0.3)) (ComponentDetails.ofComp (Comp.val 0.7))
      (ComponentDetails.ofComp (Comp.val 1)))
    (Color.new Space.Hsl (ComponentDetails.ofComp (Comp.val (-30)))
      (ComponentDetails.ofComp (Comp.val 0.7)) (ComponentDetails.ofComp (Comp.val 0.3))
      (ComponentDetails.ofComp (Comp.val 1)))
    Space.Hsl

/-- `Color::new(Space::Srgb, 0.1, 0.2, 0.3, 5.0)`: construction with an
out-of-range alpha. -/
def c7color : Color :=
  Color.new Space.Srgb (ComponentDetails.ofComp (Comp.val 0.1))
    (ComponentDetails.ofComp (Comp.val 0.2)) (ComponentDetails.ofComp (Comp.val 0.3))
    (ComponentDetails.ofComp (Comp.val 5))

/-- `Color::new(Space::Srgb, None, 0.1, 0.2, 1.0)`: construction with a
missing first component. -/
def c8color : Color :=
  Color.new Space.Srgb (ComponentDetails.ofOpt none)
    (ComponentDetails.ofComp (Comp.val 0.1)) (ComponentDetails.ofComp (Comp.val 0.2))
    (ComponentDetails.ofComp (Comp.val 1))

/-- `Color::new(Space::Srgb, 2.0, 2.0, 2.0, None)`: a well-formed out-of-gamut
sRGB color with a flagged-missing alpha (stored `0`). -/
def c10color : Color :=
  Color.new Space.Srgb (ComponentDetails.ofComp (Comp.val 2))
    (ComponentDetails.ofComp (Comp.val 2)) (ComponentDetails.ofComp (Comp.val 2))
    (ComponentDetails.ofOpt none)

/-- `Color::new(Space::Srgb, 2.0, 2.0, 2.0, 1.0)`: a concrete out-of-gamut
sRGB color used to instantiate hypotheses. -/
def sampleColor : Color :=
  Color.new Space.Srgb (ComponentDetails.ofComp (Comp.val 2))
    (ComponentDetails.ofComp (Comp.val 2)) (ComponentDetails.ofComp (Comp.val 2))
    (ComponentDetails.ofComp (Comp.val 1))

@[simp]
theorem comp_add_val (a b : ℚ) : Comp.val a + Comp.val b = Comp.val (a + b) := rfl

@[simp]
theorem comp_sub_val (a b : ℚ) : Comp.val a - Comp.val b = Comp.val (a - b) := rfl

@[simp]
theorem comp_mul_val (a b : ℚ) : Comp.val a * Comp.val b = Comp.val (a * b) := rfl

@[simp]
theorem comp_neg_val (a : ℚ) : -Comp.val a = Comp.val (-a) := rfl

@[simp]
theorem comp_div_val (a b : ℚ) :
    Comp.val a / Comp.val b = if b = 0 then Comp.nan else Comp.val (a / b) := rfl

@[simp]
theorem comp_ltb_val (a b : ℚ) : (Comp.val a).ltb (Comp.val b) = decide (a < b) := rfl

@[simp]
theorem comp_leb_val (a b : ℚ) : (Comp.val a).leb (Comp.val b) = decide (a ≤ b) := rfl

@[simp]
theorem comp_gtb_val (a b : ℚ) : (Comp.val a).gtb (Comp.val b) = decide (b < a) := rfl

@[simp]
theorem comp_geb_val (a b : ℚ) : (Comp.val a).geb (Comp.val b) = decide (b ≤ a) := rfl

@[simp]
theorem comp_beq_val (a b : ℚ) : (Comp.val a).beq (Comp.val b) = decide (a = b) := rfl

@[simp]
theorem comp_isNan_val (a : ℚ) : (Comp.val a).isNan = false := rfl

@[simp]
theorem comp_isNan_nan : Comp.nan.isNan = true := rfl

@[simp]
theorem comp_rmin_val (a b : ℚ) : (Comp.val a).rmin (Comp.val b) = Comp.val (min a b) := rfl

@[simp]
theorem comp_rmax_val (a b : ℚ) : (Comp.val a).rmax (Comp.val b) = Comp.val (max a b) := rfl

@[simp]
theorem comp_clamp_val (a lo hi : ℚ) :
    (Comp.val a).clamp lo hi = Comp.val (min (max a lo) hi) := rfl

@[simp]
theorem comp_abs_val (a : ℚ) : (Comp.val a).abs = Comp.val |a| := rfl

@[simp]
theorem comp_fmod_val (a m : ℚ) :
    (Comp.val a).fmod m = Comp.val (a - m * Comp.qtrunc (a / m)) := rfl

@[simp]
theorem comp_nearb_val (a b tol : ℚ) :
    (Comp.val a).nearb b tol = decide (|a - b| ≤ tol) := rfl

@[simp]
theorem comp_nan_add (x : Comp) : Comp.nan + x = Comp.nan := by cases x <;> rfl

@[simp]
theorem comp_add_nan (x : Comp) : x + Comp.nan = Comp.nan := by cases x <;> rfl

@[simp]
theorem comp_nan_sub (x : Comp) : Comp.nan - x = Comp.nan := by cases x <;> rfl

@[simp]
theorem comp_sub_nan (x : Comp) : x - Comp.nan = Comp.nan := by cases x <;> rfl

@[simp]
theorem comp_nan_mul (x : Comp) : Comp.nan * x = Comp.nan := by cases x <;> rfl

@[simp]
theorem comp_mul_nan (x : Comp) : x * Comp.nan = Comp.nan := by cases x <;> rfl

@[simp]
theorem comp_nan_div (x : Comp) : Comp.nan / x = Comp.nan := by cases x <;> rfl

@[simp]
theorem comp_div_nan (x : Comp) : x / Comp.nan = Comp.nan := by cases x <;> rfl

@[simp]
theorem comp_nan_ltb (x : Comp) : Comp.nan.ltb x = false := by cases x <;> rfl

@[simp]
theorem comp_ltb_nan (x : Comp) : x.ltb Comp.nan = false := by cases x <;> rfl

@[simp]
theorem comp_nan_leb (x : Comp) : Comp.nan.leb x = false := by cases x <;> rfl

@[simp]
theorem comp_leb_nan (x : Comp) : x.leb Comp.nan = false := by cases x <;> rfl

@[simp]
theorem comp_nan_gtb (x : Comp) : Comp.nan.gtb x = false := by cases x <;> rfl

@[simp]
theorem comp_gtb_nan (x : Comp) : x.gtb Comp.nan = false := by cases x <;> rfl

@[simp]
theorem comp_nan_geb (x : Comp) : Comp.nan.geb x = false := by cases x <;> rfl

@[simp]
theorem comp_geb_nan (x : Comp) : x.geb Comp.nan = false := by cases x <;> rfl

@[simp]
theorem comp_nan_beq (x : Comp) : Comp.nan.beq x = false := by cases x <;> rfl

@[simp]
theorem comp_beq_nan (x : Comp) : x.beq Comp.nan = false := by cases x <;> rfl

@[simp]
theorem comp_abs_nan : Comp.nan.abs = Comp.nan := rfl

@[simp]
theorem comp_neg_nan : -Comp.nan = Comp.nan := rfl

@[simp]
theorem comp_signum_nan : Comp.nan.signum = Comp.nan := rfl

@[simp]
theorem comp_signum_val (a : ℚ) :
    (Comp.val a).signum = Comp.val (if 0 ≤ a then 1 else -1) := rfl

@[simp]
theorem comp_fmod_nan (m : ℚ) : Comp.nan.fmod m = Comp.nan := rfl

@[simp]
theorem comp_remEuclid_nan (m : ℚ) : Comp.nan.remEuclid m = Comp.nan := rfl

@[simp]
theorem comp_clamp_nan (lo hi : ℚ) : Comp.nan.clamp lo hi = Comp.nan := rfl

/-- A same-space conversion returns the color unchanged
(`src/src/convert.rs` lines 39-41). -/
theorem to_space_same (K : Kernels) (c : Color) (t : Space) (h : c.space = t) :
    c.to_space K t = c := by
  unfold Color.to_space
  rw [if_pos h]

/-- A cross-space conversion converts the components and reattaches the alpha
option. -/
theorem to_space_of_ne (K : Kernels) (c : Color) (t : Space) (h : ¬ c.space = t) :
    c.to_space K t =
      Model.to_color t (convertComponents K c.space t c.components) c.alphaOpt := by
  unfold Color.to_space
  rw [if_neg h]

/-- Claim C3: the carry-forward table itself maps a missing HSL hue to a
missing HWB hue, but `Color::to_space` does not apply it: converting
`hsl(none 0.5 0.5 / 1)` to HWB resolves the missing hue to `0°` and returns
`hwb(0 0.25 0.25)` with no missing-component flag at all.  (The HSL-to-HWB
arm pivots through sRGB with purely rational arithmetic, so no transcendental
kernel is involved.) -/
theorem to_space_drops_missing_hue_hsl_to_hwb :
    (c3color.to_space K0 Space.Hwb).flags = Flags.empty ∧
    (c3color.to_space K0 Space.Hwb).components =
      ⟨Comp.val 0, Comp.val (1 / 4), Comp.val (1 / 4)⟩ ∧
    analogous_missing_components Space.Hsl Space.Hwb ⟨true, false, false, false⟩ =
      ⟨true, false, false, false⟩ := by
  have key : c3color.to_space K0 Space.Hwb =
      ⟨⟨Comp.val 0, Comp.val (1 / 4), Comp.val (1 / 4)⟩, Comp.val 1, Flags.empty,
        Space.Hwb⟩ := by
    rw [to_space_of_ne _ _ _ (by decide)]
    norm_num [c3color, convertComponents, Model.to_color, cdOfConv,
      ComponentDetails.ofOpt, ComponentDetails.ofComp, Color.new, Color.alphaOpt,
      hsl_to_rgb, hslF, rgb_to_hwb, rgb_to_hue_min_max, Comp.remEuclid, Comp.qtrunc,
      Flags.empty, min_def, max_def]
  exact ⟨by rw [key], by rw [key], by decide⟩

/-- Claim C4 (counterexample): `with_weights` does not normalize its weights —
on the sRGB interpolation from `(0.5, 0.5, 0.5)` to `(0.1, 0.1, 0.1)`,
`with_weights(1.0, 1.0)` yields component `0.6` (the raw weighted sum) while
`at(0.5)` yields `0.3`, so `with_weights(1.0, 1.0)` differs from `at(0.5)`. -/
theorem with_weights_does_not_normalize :
    (interp4.with_weights (Comp.val 1) (Comp.val 1)).components.c0 = Comp.val (3 / 5) ∧
    (interp4.at (Comp.val (1 / 2))).components.c0 = Comp.val (3 / 10) ∧
    interp4.with_weights (Comp.val 1) (Comp.val 1) ≠ interp4.at (Comp.val (1 / 2)) := by
  have key : interp4 =
      ⟨⟨some (Comp.val (1 / 2)), some (Comp.val (1 / 2)), some (Comp.val (1 / 2)),
          some (Comp.val 1)⟩,
        ⟨some (Comp.val (1 / 10)), some (Comp.val (1 / 10)), some (Comp.val (1 / 10)),
          some (Comp.val 1)⟩,
        Space.Srgb, HueInterpolationMethod.Shorter⟩ := by
    unfold interp4 Interpolation.new
    rw [to_space_same K0 _ Space.Srgb rfl, to_space_same K0 _ Space.Srgb rfl]
    norm_num [Color.premultiply, Color.new, ComponentDetails.ofComp, Color.alphaOpt,
      Color.c0opt, Color.c1opt, Color.c2opt, Space.hue_index]
  rw [key]
  refine ⟨?_, ?_, ?_⟩ <;>
    norm_num [Interpolation.with_weights, Interpolation.at, interpChannel,
      Premultiplied.into_color, Color.new, ComponentDetails.ofOpt, Space.hue_index,
      min_def, max_def, Color.mk.injEq, Components.mk.injEq]

/-- Claim C5: round trip through a second space recovers the in-gamut color —
the concrete instance of the spec: sRGB `(0.823529, 0.411765, 0.117647, 1.0)`
converts to HSL within `1e-3` of `(25.0, 0.75, 0.470588)`, and converting back
to sRGB reproduces every original component within `1e-3` (and the alpha
exactly).  Both directions use the kernel-free direct sRGB-HSL arms. -/
theorem round_trip_srgb_hsl_concrete :
    (c5hsl.components.c0.nearb 25 (1 / 1000)) = true ∧
    (c5hsl.components.c1.nearb 0.75 (1 / 1000)) = true ∧
    (c5hsl.components.c2.nearb 0.470588 (1 / 1000)) = true ∧
    (c5back.components.c0.nearb 0.823529 (1 / 1000)) = true ∧
    (c5back.components.c1.nearb 0.411765 (1 / 1000)) = true ∧
    (c5back.components.c2.nearb 0.117647 (1 / 1000)) = true ∧
    c5back.alpha = Comp.val 1 := by
  have key1 : c5hsl =
      ⟨⟨Comp.val (2941180 / 117647), Comp.val (3 / 4), Comp.val (117647 / 250000)⟩,
        Comp.val 1, Flags.empty, Space.Hsl⟩ := by
    unfold c5hsl
    rw [to_space_of_ne _ _ _ (by decide)]
    norm_num [c5srgb, convertComponents, Model.to_color, cdOfConv,
      ComponentDetails.ofOpt, ComponentDetails.ofComp, Color.new, Color.alphaOpt,
      rgb_to_hsl, rgb_to_hue_min_max, Flags.empty, min_def, max_def]
  have key2 : c5back =
      ⟨⟨Comp.val (823529 / 1000000), Comp.val (82353 / 200000),
          Comp.val (117647 / 1000000)⟩,
        Comp.val 1, Flags.empty, Space.Srgb⟩ := by
    unfold c5back
    rw [key1, to_space_of_ne _ _ _ (by decide)]
    norm_num [convertComponents, Model.to_color, cdOfConv, ComponentDetails.ofOpt,
      ComponentDetails.ofComp, Color.new, Color.alphaOpt, hsl_to_rgb, hslF,
      Comp.remEuclid, Comp.qtrunc, Flags.empty, min_def, max_def]
  rw [key1, key2]
  refine ⟨?_, ?_, ?_, ?_, ?_, ?_, rfl⟩ <;> norm_num [abs_le]

/-- Claim C6: interpolating HSL hues `50°` (left) and `-30°` (right) at
`t = 0.5` yields hue `10°` under `shorter`, `190°` under `longer`, `190°`
under `increasing` and `10°` under `decreasing`. -/
theorem hue_interpolation_example :
    ((interp6.with_hue_interpolation HueInterpolationMethod.Shorter).at
      (Comp.val (1 / 2))).components.c0 = Comp.val 10 ∧
    ((interp6.with_hue_interpolation HueInterpolationMethod.Longer).at
      (Comp.val (1 / 2))).components.c0 = Comp.val 190 ∧
    ((interp6.with_hue_interpolation HueInterpolationMethod.Increasing).at
      (Comp.val (1 / 2))).components.c0 = Comp.val 190 ∧
    ((interp6.with_hue_interpolation HueInterpolationMethod.Decreasing).at
      (Comp.val (1 / 2))).components.c0 = Comp.val 10 := by
  have key : interp6 =
      ⟨⟨some (Comp.val 50), some (Comp.val (3 / 10)), some (Comp.val (7 / 10)),
          some (Comp.val 1)⟩,
        ⟨some (Comp.val (-30)), some (Comp.val (7 / 10)), some (Comp.val (3 / 10)),
          some (Comp.val 1)⟩,
        Space.Hsl, HueInterpolationMethod.Shorter⟩ := by
    unfold interp6 Interpolation.new
    rw [to_space_same K0 _ Space.Hsl rfl, to_space_same K0 _ Space.Hsl rfl]
    norm_num [Color.premultiply, Color.new, ComponentDetails.ofComp, Color.alphaOpt,
      Color.c0opt, Color.c1opt, Color.c2opt, Space.hue_index]
  rw [key]
  refine ⟨?_, ?_, ?_, ?_⟩ <;>
    norm_num [Interpolation.with_hue_interpolation, Interpolation.with_weights,
      Interpolation.at, interpChannel, Premultiplied.into_color,
      HueInterpolationMethod.adjust_hue, Color.new, ComponentDetails.ofOpt,
      Space.hue_index, Comp.remEuclid, Comp.qtrunc, min_def, max_def,
      (by norm_num : (⌈-(1 / 12 : ℚ)⌉ : ℤ) = 0)]

/-- Claim C7 (counterexample): the `src/src/color.rs` iteration of
`Color::new` stores alpha `5.0` unchanged — it does not clamp to `1.0`. -/
theorem color_new_does_not_clamp_alpha :
    c7color.alpha = Comp.val 5 ∧ c7color.alpha ≠ Comp.val 1 := by
  refine ⟨rfl, ?_⟩
  simp [c7color, Color.new, ComponentDetails.ofComp]

/-- Claim C7 (amended): the `crates/camelion` iteration of `Color::new` clamps
a present alpha `a` to `min(max(a, 0), 1)` at construction, while the
`src/src` iteration stores it unchanged. -/
theorem camelion_color_new_clamps_alpha (sp : Space) (d0 d1 d2 : ComponentDetails)
    (a : ℚ) :
    (camelion.ColorNew sp d0 d1 d2 (ComponentDetails.ofComp (Comp.val a))).alpha =
      Comp.val (min (max a 0) 1) ∧
    (Color.new sp d0 d1 d2 (ComponentDetails.ofComp (Comp.val a))).alpha =
      Comp.val a :=
  ⟨rfl, rfl⟩

/-- Claim C8 (counterexample): a constructor-produced color can have a
missing-component flag set while the stored value is `0`, not NaN — the flag
and the NaN sentinel are not kept in sync. -/
theorem flag_set_without_nan :
    c8color.flags.c0_is_none = true ∧ c8color.components.c0.isNan = false :=
  ⟨rfl, rfl⟩

/-- Claim C8 (amended): for every color produced by `Color::new`, a flag is
set iff the corresponding argument carried the explicit missing marker; a
missing component is stored as `0`, a present component (NaN included) is
stored unchanged with its flag clear. -/
theorem color_new_flags_track_missing_markers (sp : Space)
    (o0 o1 o2 oa : Option Comp) :
    (Color.new sp (ComponentDetails.ofOpt o0) (ComponentDetails.ofOpt o1)
        (ComponentDetails.ofOpt o2) (ComponentDetails.ofOpt oa)).flags =
      ⟨o0.isNone, o1.isNone, o2.isNone, oa.isNone⟩ ∧
    (Color.new sp (ComponentDetails.ofOpt o0) (ComponentDetails.ofOpt o1)
        (ComponentDetails.ofOpt o2) (ComponentDetails.ofOpt oa)).components =
      ⟨o0.getD (Comp.val 0), o1.getD (Comp.val 0), o2.getD (Comp.val 0)⟩ ∧
    (Color.new sp (ComponentDetails.ofOpt o0) (ComponentDetails.ofOpt o1)
        (ComponentDetails.ofOpt o2) (ComponentDetails.ofOpt oa)).alpha =
      oa.getD (Comp.val 0) ∧
    (∀ v0 v1 v2 va : Comp,
      (Color.new sp (ComponentDetails.ofComp v0) (ComponentDetails.ofComp v1)
          (ComponentDetails.ofComp v2) (ComponentDetails.ofComp va)).flags =
        Flags.empty) := by
  refine ⟨?_, ?_, ?_, fun v0 v1 v2 va => rfl⟩ <;>
    cases o0 <;> cases o1 <;> cases o2 <;> cases oa <;> rfl

/-- Halving the search interval strictly decreases the
`toNat ceil ((max - min) / EPSILON)` measure while the loop guard holds. -/
theorem gamut_ceil_half_lt (a b : ℚ) (h : gamutEpsilon < b - a) :
    (⌈(b - a) / 2 / gamutEpsilon⌉).toNat < (⌈(b - a) / gamutEpsilon⌉).toNat := by
  have h1 : (1 : ℚ) < (b - a) / gamutEpsilon := by
    rw [lt_div_iff₀ (by norm_num [gamutEpsilon] : (0 : ℚ) < gamutEpsilon)]
    simpa using h
  have h2 : 1 < ⌈(b - a) / gamutEpsilon⌉ := by
    exact_mod_cast Int.lt_ceil.mpr (by exact_mod_cast h1)
  have h3 : ⌈(b - a) / 2 / gamutEpsilon⌉ ≤ ⌈(b - a) / gamutEpsilon⌉ - 1 := by
    apply Int.ceil_le.mpr
    rw [show (b - a) / 2 / gamutEpsilon = (b - a) / gamutEpsilon / 2 from by ring]
    have hle : (b - a) / gamutEpsilon ≤ (⌈(b - a) / gamutEpsilon⌉ : ℚ) := Int.le_ceil _
    have h2q : (2 : ℚ) ≤ (⌈(b - a) / gamutEpsilon⌉ : ℚ) := by exact_mod_cast h2
    push_cast
    linarith
  omega

/-- Iteration-count bound for the rational chroma binary-search loop: when the
interval fits in `2 ^ k` epsilon-steps, the loop runs at most `k` iterations —
each iteration moves one endpoint to the midpoint `(min + max) / 2`, exactly
halving `max - min`, so the guard `max - min > EPSILON` must fail within `k`
rounds, whatever the conversion kernels, the in-gamut tests and the deltaEOK
comparisons decide. -/
theorem gamutLoopQ_iteration_bound (K : Kernels) (sp : Space) :
    ∀ (k : Nat) (cur cis : Color) (mig : Bool) (a b : ℚ),
      b - a ≤ gamutEpsilon * 2 ^ k →
      (Color.gamutLoopQ K sp cur cis mig a b).2 ≤ k := by
  intro k
  induction k with
  | zero =>
    intro cur cis mig a b hab
    rw [Color.gamutLoopQ]
    rw [dif_neg (by simp only [pow_zero, mul_one] at hab; exact not_lt.mpr hab)]
  | succ k ih =>
    intro cur cis mig a b hab
    rw [Color.gamutLoopQ]
    by_cases h : gamutEpsilon < b - a
    · rw [dif_pos h]
      have hhalf : b - (a + b) / 2 ≤ gamutEpsilon * 2 ^ k := by
        rw [pow_succ] at hab
        rw [show b - (a + b) / 2 = (b - a) / 2 from by ring]
        linarith
      have hhalf' : (a + b) / 2 - a ≤ gamutEpsilon * 2 ^ k := by
        rw [pow_succ] at hab
        rw [show (a + b) / 2 - a = (b - a) / 2 from by ring]
        linarith
      simp only []
      split
      · exact Nat.succ_le_succ (ih _ _ _ _ _ hhalf)
      · split
        · split
          · exact Nat.succ_le_succ (Nat.zero_le k)
          · exact Nat.succ_le_succ (ih _ _ _ _ _ hhalf)
        · exact Nat.succ_le_succ (ih _ _ _ _ _ hhalf')
    · rw [dif_neg h]
      exact Nat.zero_le _

/-- Claim C9: the chroma binary-search loop of `map_into_gamut_limits`
terminates.  Each iteration sets `min` or `max` to the midpoint
`(min + max) / 2`, halving `max - min` exactly, so once the initial interval
(`[0, initial_chroma]` in `map_into_gamut_limits`) fits in `2 ^ k` steps of
`EPSILON = 1e-4` — i.e. after about `log2(initial_chroma / EPSILON)`
iterations (about 14 for a unit interval) — the guard `max - min > EPSILON`
fails and the loop stops.  A NaN endpoint fails the IEEE guard immediately.
The bound holds for every choice of transcendental kernels, hence for every
behavior of the conversion, in-gamut and deltaEOK subroutines that the loop
body calls. -/
theorem gamut_loop_iteration_bound (K : Kernels) (sp : Space) (cur cis : Color)
    (mig : Bool) (mn mx : Comp) (k : Nat)
    (h : ∀ a b : ℚ, mn = Comp.val a → mx = Comp.val b →
      b - a ≤ gamutEpsilon * 2 ^ k) :
    (Color.gamutLoop K sp cur cis mig mn mx).2 ≤ k := by
  unfold Color.gamutLoop
  cases mn with
  | nan => cases mx <;> exact Nat.zero_le _
  | val a =>
    cases mx with
    | nan => exact Nat.zero_le _
    | val b => exact gamutLoopQ_iteration_bound K sp k cur cis mig a b (h a b rfl rfl)

/-- Witness for the C9 bound at a concrete state: the interval `[0, 1]` fits
in `2 ^ 14` epsilon-steps, so the loop runs at most 14 iterations there. -/
theorem gamut_loop_iteration_bound_witness :
    (∀ a b : ℚ, Comp.val 0 = Comp.val a → Comp.val 1 = Comp.val b →
      b - a ≤ gamutEpsilon * 2 ^ 14) ∧
    (Color.gamutLoop K0 Space.Srgb sampleColor sampleColor true (Comp.val 0)
      (Comp.val 1)).2 ≤ 14 := by
  have hh : ∀ a b : ℚ, Comp.val 0 = Comp.val a → Comp.val 1 = Comp.val b →
      b - a ≤ gamutEpsilon * 2 ^ 14 := by
    intro a b ha hb
    injection ha with h1
    injection hb with h2
    subst h1
    subst h2
    norm_num [gamutEpsilon]
  exact ⟨hh, gamut_loop_iteration_bound K0 Space.Srgb sampleColor sampleColor true
    (Comp.val 0) (Comp.val 1) 14 hh⟩

/-- `to_space` always lands in the requested space. -/
theorem to_space_space (K : Kernels) (c : Color) (t : Space) :
    (c.to_space K t).space = t := by
  unfold Color.to_space
  split
  · next h => exact h
  · rfl

/-- For a well-formed color (a missing alpha is stored as `0`), `to_space`
preserves the stored alpha value and the alpha-missing flag. -/
theorem to_space_alpha_frame (K : Kernels) (c : Color) (t : Space)
    (h : c.flags.alpha_is_none = true → c.alpha = Comp.val 0) :
    (c.to_space K t).alpha = c.alpha ∧
    (c.to_space K t).flags.alpha_is_none = c.flags.alpha_is_none := by
  unfold Color.to_space
  split
  · exact ⟨rfl, rfl⟩
  · by_cases hf : c.flags.alpha_is_none
    · simp [Model.to_color, Color.new, Color.alphaOpt, ComponentDetails.ofOpt, hf, h hf]
    · simp [Model.to_color, Color.new, Color.alphaOpt, ComponentDetails.ofOpt, hf]

/-- `clip` keeps the space and the alpha value. -/
theorem clip_frame (c : Color) : (c.clip).space = c.space ∧ (c.clip).alpha = c.alpha :=
  ⟨rfl, rfl⟩

/-- Frame property of the rational binary-search loop: every return path
(loop exit, clipped early return, recursion) yields a color in the
destination space carrying the tracked alpha value, for any kernels. -/
theorem gamutLoopQ_frame (K : Kernels) (sp : Space) :
    ∀ (n : Nat) (cur cis : Color) (mig : Bool) (a b : ℚ) (A : Comp),
      (⌈(b - a) / gamutEpsilon⌉).toNat ≤ n →
      cis.space = sp → cis.alpha = A →
      (cur.flags.alpha_is_none = true → cur.alpha = Comp.val 0 ∧ A = Comp.val 0) →
      (cur.flags.alpha_is_none = false → cur.alpha = A) →
      (Color.gamutLoopQ K sp cur cis mig a b).1.space = sp ∧
      (Color.gamutLoopQ K sp cur cis mig a b).1.alpha = A := by
  intro n
  induction n with
  | zero =>
    intro cur cis mig a b A hm hs ha hw1 hw2
    rw [Color.gamutLoopQ]
    have hG : ¬ gamutEpsilon < b - a := by
      intro hlt
      have := gamut_ceil_half_lt a b hlt
      omega
    rw [dif_neg hG]
    exact ⟨hs, ha⟩
  | succ n ih =>
    intro cur cis mig a b A hm hs ha hw1 hw2
    rw [Color.gamutLoopQ]
    by_cases hG : gamutEpsilon < b - a
    · rw [dif_pos hG]
      have hmeas : ∀ d : ℚ, d = (b - a) / 2 →
          (⌈d / gamutEpsilon⌉).toNat ≤ n := by
        intro d hd
        subst hd
        have := gamut_ceil_half_lt a b hG
        omega
      have hcis' : ∀ q : ℚ,
          ((({ cur with components :=
              ⟨cur.components.c0, Comp.val q, cur.components.c2⟩ } : Color).to_space
            K sp).space = sp ∧
          (({ cur with components :=
              ⟨cur.components.c0, Comp.val q, cur.components.c2⟩ } : Color).to_space
            K sp).alpha = A) := by
        intro q
        refine ⟨to_space_space K _ sp, ?_⟩
        have hwf : ({ cur with components :=
            ⟨cur.components.c0, Comp.val q, cur.components.c2⟩ } : Color).flags.alpha_is_none
              = true →
            ({ cur with components :=
              ⟨cur.components.c0, Comp.val q, cur.components.c2⟩ } : Color).alpha =
              Comp.val 0 := fun hf => (hw1 hf).1
        have hpres := (to_space_alpha_frame K _ sp hwf).1
        rw [hpres]
        by_cases hf : cur.flags.alpha_is_none
        · rw [show ({ cur with components :=
              ⟨cur.components.c0, Comp.val q, cur.components.c2⟩ } : Color).alpha =
              cur.alpha from rfl, (hw1 hf).1, (hw1 hf).2]
        · exact hw2 (by simpa using hf)
      simp only []
      split
      · exact ih _ _ _ _ _ _ (hmeas _ (by ring)) (hcis' _).1 (hcis' _).2 hw1 hw2
      · split
        · split
          · constructor
            · rw [(clip_frame _).1, (hcis' _).1]
            · rw [(clip_frame _).2, (hcis' _).2]
          · exact ih _ _ _ _ _ _ (hmeas _ (by ring)) (hcis' _).1 (hcis' _).2 hw1 hw2
        · exact ih _ _ _ _ _ _ (hmeas _ (by ring)) (hcis' _).1 (hcis' _).2 hw1 hw2
    · rw [dif_neg hG]
      exact ⟨hs, ha⟩

/-- Claim C10 (counterexample to the original claim): `map_into_gamut_limits`
does not change only the three color components.  For the well-formed color
`srgb(2 2 2 / none)` (missing alpha flagged, stored `0`), the black-lightness
return path rebuilds the color with plain-`Component` `Color::new`
(`src/src/gamut.rs` line 55), which recomputes the flags from scratch: the
result has `ALPHA_IS_NONE` cleared, so `Color::alpha()` changes from `None` to
`Some(0.0)` even though the stored alpha value and the space are preserved.
(With the all-NaN kernels the Oklch origin's NaN lightness is stored as `0`
with its missing flag set, so `lightness <= 0.0` selects the black path; with
real kernels the same color takes the white path at `src/src/gamut.rs` line 49,
which wipes the flags identically.) -/
theorem map_into_gamut_limits_changes_flags :
    c10color.flags.alpha_is_none = true ∧ c10color.alphaOpt = none ∧
    (c10color.map_into_gamut_limits K0).flags.alpha_is_none = false ∧
    (c10color.map_into_gamut_limits K0).alphaOpt = some (Comp.val 0) := by
  have key : c10color.to_space K0 Space.Oklch =
      ⟨⟨Comp.val 0, Comp.val 0, Comp.val 0⟩, Comp.val 0, ⟨true, true, false, true⟩,
        Space.Oklch⟩ := by
    rw [to_space_of_ne K0 c10color Space.Oklch (by decide)]
    norm_num [c10color, K0, convertComponents, toXyzD50, fromXyzD50,
      srgbToLinearLight, srgbLinearToXyz, d65ToD50, d50ToD65, xyzToOklab, toPolar,
      transformM, Components.map, almost_zero, normalize_hue, mathNormalize,
      Comp.remEuclid, Comp.qtrunc, Model.to_color, cdOfConv, ComponentDetails.ofOpt,
      ComponentDetails.ofComp, Color.new, Color.alphaOpt]
  have hmap : c10color.map_into_gamut_limits K0 =
      Color.new Space.Srgb (ComponentDetails.ofComp (Comp.val 0))
        (ComponentDetails.ofComp (Comp.val 0)) (ComponentDetails.ofComp (Comp.val 0))
        (ComponentDetails.ofComp (Comp.val 0)) := by
    unfold Color.map_into_gamut_limits
    rw [key]
    norm_num [c10color, Color.in_gamut, rgbComponentsInGamut, in_zero_to_one,
      Color.new, ComponentDetails.ofComp, ComponentDetails.ofOpt,
      Space.hasNoGamutLimits]
  refine ⟨rfl, rfl, ?_, ?_⟩
  · rw [hmap]; rfl
  · rw [hmap]; rfl

/-- Claim C10 (amended): `map_into_gamut_limits` is a frame over the space and
the stored alpha value only — for every well-formed color (a flagged-missing
alpha is stored as `0`, as every constructor produces) and every choice of
transcendental kernels, the result's `space` field equals the input's and the
result's stored alpha value equals the input's.  The white/black, clip and
search return paths rebuild the color and recompute the flags from the new
components (plain-`Component` `Color::new` on the white/black/clip paths wipes
all flags), so the flags — and hence `Color::alpha()` — are not preserved in
general. -/
theorem map_into_gamut_limits_frame (K : Kernels) (c : Color)
    (h : c.flags.alpha_is_none = true → c.alpha = Comp.val 0) :
    (c.map_into_gamut_limits K).space = c.space ∧
    (c.map_into_gamut_limits K).alpha = c.alpha := by
  unfold Color.map_into_gamut_limits
  split
  · exact ⟨rfl, rfl⟩
  · split
    · exact ⟨rfl, rfl⟩
    · simp only []
      split
      · exact ⟨rfl, rfl⟩
      · split
        · exact ⟨rfl, rfl⟩
        · split
          · exact ⟨(clip_frame c).1, (clip_frame c).2⟩
          · have horig := to_space_alpha_frame K c Space.Oklch h
            have hsp := to_space_space K c Space.Oklch
            unfold Color.gamutLoop
            split
            · next a b heq =>
              refine gamutLoopQ_frame K c.space _ _ _ _ _ _ _ (Nat.le_refl _) rfl rfl
                ?_ ?_
              · intro hf
                rw [horig.2] at hf
                exact ⟨by rw [horig.1, h hf], h hf⟩
              · intro hf
                rw [horig.2] at hf
                exact horig.1
            · exact ⟨rfl, rfl⟩

/-- Witness for the C10 frame property at the concrete out-of-gamut color
`srgb(2 2 2 / 1)` with the trivial kernels. -/
theorem map_into_gamut_limits_frame_witness :
    (sampleColor.flags.alpha_is_none = true → sampleColor.alpha = Comp.val 0) ∧
    ((sampleColor.map_into_gamut_limits K0).space = sampleColor.space ∧
      (sampleColor.map_into_gamut_limits K0).alpha = sampleColor.alpha) :=
  ⟨fun hf => absurd hf (by simp [sampleColor, Color.new, ComponentDetails.ofComp]),
    map_into_gamut_limits_frame K0 sampleColor
      (fun hf => absurd hf (by simp [sampleColor, Color.new, ComponentDetails.ofComp]))⟩

/-- Development lemma (the provable half of the gamut idempotence spec
property): any color that is already in gamut — in particular any color in one
of the six spaces without gamut limits, where `in_gamut` is constantly true —
is returned unchanged by `map_into_gamut_limits`, via its two early returns.
The idempotence of the full function additionally depends on the
binary-search exit path, which the abstract transcendental kernels leave
undetermined. -/
theorem map_into_gamut_limits_fixes_in_gamut (K : Kernels) (c : Color)
    (h : c.in_gamut K = true) : c.map_into_gamut_limits K = c := by
  unfold Color.map_into_gamut_limits
  simp [h]

/-- Claim C4 (amended): the CSS color-mix percentage normalization lives in
`with_normalized_weights`, not in `with_weights`: for rational weights with a
positive sum, `with_normalized_weights(l, r)` rescales both weights by
`1 / (l + r)` when the sum is not 1, computes the raw combination
(equivalently `at(r / (l + r))`, since the rescaled weights sum exactly to 1),
and multiplies the resulting alpha by `l + r` when `l + r < 1` (by 1
otherwise).  In particular `with_normalized_weights(1, 1)` equals `at(0.5)`
with its alpha multiplied by 1. -/
theorem with_normalized_weights_normalizes (I : Interpolation) (l r : ℚ)
    (h : 0 < l + r) :
    I.with_normalized_weights (Comp.val l) (Comp.val r) =
      { I.at (Comp.val (r / (l + r))) with
        alpha := (I.at (Comp.val (r / (l + r)))).alpha *
          Comp.val (if l + r < 1 then l + r else 1) } := by
  have hsum : l + r ≠ 0 := ne_of_gt h
  have harg : Comp.val 1 - Comp.val (r / (l + r)) = Comp.val (l / (l + r)) := by
    rw [comp_sub_val]
    congr 1
    field_simp
  unfold Interpolation.with_normalized_weights Interpolation.at
  simp only [comp_add_val, comp_beq_val, comp_ltb_val, harg]
  by_cases h1 : l + r = 1
  · simp only [h1, div_one]
    norm_num
  · have hb : decide (l + r = 1) = false := by simp [h1]
    simp only [hb, if_true]
    rw [comp_div_val, if_neg hsum]
    simp only [comp_mul_val, mul_one_div]
    by_cases h2 : l + r < 1 <;> simp [h2]

/-- Witness for the amended C4 statement at `interp4` with weights `(1, 1)`:
the normalized evaluation equals `at(0.5)` (alpha multiplied by 1). -/
theorem with_normalized_weights_normalizes_witness :
    0 < (1 : ℚ) + 1 ∧
    interp4.with_normalized_weights (Comp.val 1) (Comp.val 1) =
      { interp4.at (Comp.val (1 / (1 + 1))) with
        alpha := (interp4.at (Comp.val (1 / (1 + 1)))).alpha *
          Comp.val (if (1 : ℚ) + 1 < 1 then 1 + 1 else 1) } :=
  ⟨by norm_num, with_normalized_weights_normalizes interp4 1 1 (by norm_num)⟩
